import Mathlib

/-!
Shallow embedding of the ipfs-search crawler core, the child-queueing logic of
the directory expander, the update policy for existing items, and the sniffer
event-source hook, together with proofs of the specification claims about them.

Conventions of the embedding:
* Machine effects (queue publishes, index writes, partial updates, deletes) are
  recorded as an explicit list of `Effect` values, in the order the Go code
  performs them.
* Go `error` values become `Option GoError` (`none` is the nil error).
* Go panics become the explicit `panicked` or `Except.error` outcomes.
* Times are integers counting nanoseconds since the epoch, matching the
  resolution of Go `time.Time`; `Truncate(time.Second)` is integer truncation.
* External collaborators (the protocol gateway `Stat`/`Ls`, the bulk getter,
  the extractor HTTP services, the random source) are passed in as oracle
  values holding the results that the collaborator would return; the code that
  consumes those results is translated from the source.
-/

namespace IpfsSearch

/-- Protocol tag of a resource (types package, `t.InvalidProtocol`, `t.IPFSProtocol`). -/
inductive Protocol where
  | invalidProtocol
  | ipfsProtocol
deriving DecidableEq, Repr

/-- Resource type enumeration (types package, `t.UndefinedType` etc.). -/
inductive ResourceType where
  | undefinedType
  | fileType
  | directoryType
  | partialType
  | unsupportedType
deriving DecidableEq, Repr

/-- Source (provenance) of an annotated resource (types package). -/
inductive SourceType where
  | unknownSource
  | snifferSource
  | directorySource
  | manualSource
  | userSource
deriving DecidableEq, Repr

/-- A resource, identified by protocol and CID string (types package `t.Resource`). -/
structure Resource where
  protocol : Protocol
  id : String
deriving DecidableEq, Repr

/-- Parent link of an item discovered during directory traversal
(types package `t.Reference`). The Go `Parent` field is a pointer to the parent
annotated resource; only its `ID` is ever read, so the parent is embedded as an
optional `Resource`. -/
structure Reference where
  parent : Option Resource
  name : String
deriving DecidableEq, Repr

/-- An annotated resource (types package `t.AnnotatedResource`), flattened:
the embedded `Resource` contributes `protocol` and `id`, the embedded `Stat`
contributes `rtype` (promoted as `r.Type` in Go) and `size`. -/
structure AnnotatedResource where
  protocol : Protocol
  id : String
  source : SourceType
  reference : Reference
  rtype : ResourceType
  size : Nat
deriving DecidableEq, Repr

/-- Go error values relevant to the crawler, with `wrapped` standing for both
`t.WrappedError` and `fmt.Errorf` with a `%w` verb; `generic` is any other
error. -/
inductive GoError where
  | invalidResource
  | fileTooLarge
  | endOfLs
  | wrapped (base : GoError) (msg : String)
  | generic (msg : String)
deriving DecidableEq, Repr

/-- Model of Go `errors.Is`: an error matches the target when it is equal to it
or its wrap chain reaches it. -/
def errorIs : GoError → GoError → Bool
  | e@(.wrapped base _), target => decide (e = target) || errorIs base target
  | e, target => decide (e = target)

/-- Modelled from the spec: the `Error()` string rendering of the repository
error values; `t.WrappedError` (whose definition is not under src) renders its
message, base errors render fixed strings. -/
def errorString : GoError → String
  | .invalidResource => "invalid resource"
  | .fileTooLarge => "file too large"
  | .endOfLs => "end of list"
  | .wrapped _ msg => msg
  | .generic msg => msg

/-- The public error for an oversized directory, from the source:
`ErrDirectoryTooLarge = t.WrappedError{Err: t.ErrInvalidResource, Msg: "directory too large"}`. -/
def ErrDirectoryTooLarge : GoError := .wrapped .invalidResource "directory too large"

/-- Modelled from the spec: `t.ErrUnsupportedType` (types package, not under
src) is classified as `InvalidResource` by the crawler, hence wraps it. -/
def ErrUnsupportedType : GoError := .wrapped .invalidResource "unsupported type"

namespace IndexTypes

/-- A reference stored in an indexed document (index types package). -/
structure Reference where
  parentHash : String
  name : String
deriving DecidableEq, Repr

/-- Common document fields (index types package `Document`). -/
structure Document where
  firstSeen : Int
  lastSeen : Int
  references : List Reference
  size : Nat
deriving DecidableEq, Repr

/-- Link type tags of directory links (index types package). -/
inductive LinkType where
  | fileLinkType
  | directoryLinkType
  | unknownLinkType
  | unsupportedLinkType
deriving DecidableEq, Repr

/-- A directory link (index types package `Link`). -/
structure Link where
  hash : String
  name : String
  size : Nat
  linkType : LinkType
deriving DecidableEq, Repr

/-- A file document (index types package `File`). The extractor-populated
metadata map is maintained by external HTTP services and is not the subject of
any claim; only the common document is carried. -/
structure File where
  document : Document
deriving DecidableEq, Repr

/-- A directory document (index types package `Directory`). -/
structure Directory where
  document : Document
  links : List Link
deriving DecidableEq, Repr

/-- A partial update body (index types package `Update`); fields that are nil
pointers in Go are `none` and are omitted from the serialised update. -/
structure Update where
  lastSeen : Option Int
  references : Option (List Reference)
deriving DecidableEq, Repr

end IndexTypes

/-- The four search-backend indexes held by the crawler. -/
inductive IndexName where
  | files
  | directories
  | invalids
  | partials
deriving DecidableEq, Repr

/-- The three work queues held by the crawler. -/
inductive QueueName where
  | hashes
  | files
  | directories
deriving DecidableEq, Repr

/-- Document payload written by an `Index` operation. -/
inductive DocPayload where
  | fileDoc (f : IndexTypes.File)
  | dirDoc (d : IndexTypes.Directory)
  | partialMarker
  | invalidDoc (error : String)
deriving DecidableEq, Repr

/-- An observable side effect of the crawler: a queue publish or a
search-backend write. -/
inductive Effect where
  | queued (q : QueueName) (r : AnnotatedResource) (priority : Nat)
  | indexed (idx : IndexName) (id : String) (doc : DocPayload)
  | updated (idx : IndexName) (id : String) (upd : IndexTypes.Update)
  | deleted (idx : IndexName) (id : String)
deriving DecidableEq, Repr

/-- Crawler configuration fields used by the embedded code
(config package `Crawler`): `MaxDirSize` and `MinUpdateAge` (nanoseconds). -/
structure Config where
  maxDirSize : Nat
  minUpdateAge : Int
deriving DecidableEq, Repr

/-- Go `time.Time.Truncate(time.Second)` on a nanosecond timestamp. -/
def truncateSec (t : Int) : Int := t / 1000000000 * 1000000000

/-- Translation of `isSupportedType` (crawler package): only undefined, file
and directory resources may be handed to the crawler. -/
def isSupportedType (rType : ResourceType) : Bool :=
  match rType with
  | .undefinedType | .fileType | .directoryType => true
  | _ => false

/-- Translation of `makeDocument` (crawler/index.go): common document with
both timestamps set to the second-truncated current time and the single
incoming reference, when a parent is present. -/
def makeDocument (now : Int) (r : AnnotatedResource) : IndexTypes.Document :=
  let nowT := truncateSec now
  { firstSeen := nowT
    lastSeen := nowT
    references :=
      match r.reference.parent with
      | some p => [{ parentHash := p.id, name := r.reference.name }]
      | none => []
    size := r.size }

/-- Translation of `indexInvalid` (crawler/index.go): write the error string
into the `Invalids` index under the resource CID. -/
def indexInvalid (r : AnnotatedResource) (e : GoError) : Effect :=
  .indexed .invalids r.id (.invalidDoc (errorString e))

/-- Translation of `resourceToLinkType` (crawler, directory file); the default
branch is a Go panic, modelled as `Except.error` with the panic message. -/
def resourceToLinkType (r : AnnotatedResource) : Except String IndexTypes.LinkType :=
  match r.rtype with
  | .fileType => .ok .fileLinkType
  | .directoryType => .ok .directoryLinkType
  | .undefinedType => .ok .unknownLinkType
  | .unsupportedType => .ok .unsupportedLinkType
  | _ => .error "unexpected type"

/-- Translation of `addLink` (crawler, directory file): append a link for the
entry to the directory document being built. -/
def addLink (e : AnnotatedResource) (links : List IndexTypes.Link) :
    Except String (List IndexTypes.Link) :=
  match resourceToLinkType e with
  | .error m => .error m
  | .ok lt =>
      .ok (links ++ [{ hash := e.id, name := e.reference.name, size := e.size, linkType := lt }])

/-- Translation of `queueDirEntry` (crawler, directory file): publish the entry
with a fresh random priority `1 + rand.Intn(7)` to the queue matching its type;
unsupported entries are indexed as invalid right away; the default branch is a
Go panic. The random draw `rnd` is the oracle for `rand.Intn(7)`. -/
def queueDirEntry (r : AnnotatedResource) (rnd : Fin 7) : Except String Effect :=
  let priority : Nat := 1 + rnd.val
  match r.rtype with
  | .undefinedType => .ok (.queued .hashes r priority)
  | .fileType => .ok (.queued .files r priority)
  | .directoryType => .ok (.queued .directories r priority)
  | .unsupportedType => .ok (indexInvalid r ErrUnsupportedType)
  | _ => .error "unexpected type"

/-- Result of processing the entries of one directory: the links accumulated in
the directory document, the effects performed, and either a panic message or
the returned error. -/
structure DirResult where
  links : List IndexTypes.Link
  effects : List Effect
  result : Except String (Option GoError)
deriving Repr

/-- Translation of the loop of `processDirEntries` (crawler, directory file).
State threaded through the loop: the entry counter `dirCnt`, the `isLarge`
flag, the links of the directory document under construction and the effects
performed so far. On channel close (`entries` exhausted) the Go code gets
`errEndOfLs`, resets the error and reports `ErrDirectoryTooLarge` when the
directory was large. -/
def processDirEntriesAux (maxDirSize : Nat) (rnds : Nat → Fin 7) :
    List AnnotatedResource → Nat → Bool → List IndexTypes.Link → List Effect → DirResult
  | [], _, isLarge, links, effs =>
      { links := links
        effects := effs
        result := .ok (if isLarge then some ErrDirectoryTooLarge else none) }
  | e :: rest, dirCnt, isLarge, links, effs =>
      let isLarge := isLarge || decide (dirCnt = maxDirSize)
      match (if isLarge then .ok links else addLink e links :
        Except String (List IndexTypes.Link)) with
      | .error m => { links := links, effects := effs, result := .error m }
      | .ok links =>
          match queueDirEntry e (rnds dirCnt) with
          | .error m => { links := links, effects := effs, result := .error m }
          | .ok eff =>
              processDirEntriesAux maxDirSize rnds rest (dirCnt + 1) isLarge links (effs ++ [eff])

/-- Translation of `processDirEntries` (crawler, directory file), started with
counter 0, `isLarge = false` and an empty link list. The `entries` list is the
oracle for the children pushed by `protocol.Ls`; `rnds i` is the oracle for the
random draw consumed while queueing the child at position `i`. -/
def processDirEntries (maxDirSize : Nat) (rnds : Nat → Fin 7)
    (entries : List AnnotatedResource) : DirResult :=
  processDirEntriesAux maxDirSize rnds entries 0 false [] []

/-- Translation of the extractor loop of `getFileProperties` (crawler/index.go):
each extractor result overwrites `err`; a result matching `ErrFileTooLarge`
returns immediately with nil properties and the error wrapped in
`t.ErrInvalidResource` (the `fmt.Errorf` rendering). -/
def extractLoop (doc : IndexTypes.File) :
    List (Option GoError) → Option GoError → Option IndexTypes.File × Option GoError
  | [], err => (some doc, err)
  | e :: rest, _ =>
      match e with
      | some g =>
          if errorIs g .fileTooLarge then
            (none, some (.wrapped .invalidResource
              (errorString GoError.invalidResource ++ ": " ++ errorString g)))
          else extractLoop doc rest (some g)
      | none => extractLoop doc rest none

/-- Translation of `getFileProperties` (crawler/index.go). The list
`extractorResults` is the oracle for the chained `Extract` calls, in order. -/
def getFileProperties (extractorResults : List (Option GoError)) (now : Int)
    (r : AnnotatedResource) : Option IndexTypes.File × Option GoError :=
  extractLoop { document := makeDocument now r } extractorResults none

/-- Result of `getProperties`: effects performed plus either a panic message or
the returned triple (target index, document, error). -/
structure PropResult where
  effects : List Effect
  result : Except String (Option IndexName × Option DocPayload × Option GoError)
deriving Repr

/-- Translation of `getProperties` together with `getDirectoryProperties`
(crawler/index.go): dispatch on the resource type; directories run the
directory expansion; undefined after `Stat` and unknown types are Go panics. -/
def getProperties (cfg : Config) (rnds : Nat → Fin 7)
    (lsEntries : List AnnotatedResource) (extractorResults : List (Option GoError))
    (now : Int) (r : AnnotatedResource) : PropResult :=
  match r.rtype with
  | .fileType =>
      let fe := getFileProperties extractorResults now r
      { effects := [], result := .ok (some .files, fe.1.map .fileDoc, fe.2) }
  | .directoryType =>
      let d := processDirEntries cfg.maxDirSize rnds lsEntries
      match d.result with
      | .error m => { effects := d.effects, result := .error m }
      | .ok err =>
          { effects := d.effects
            result := .ok (some .directories,
              some (.dirDoc { document := makeDocument now r, links := d.links }), err) }
  | .unsupportedType =>
      { effects := [], result := .ok (none, none, some ErrUnsupportedType) }
  | .partialType =>
      { effects := [], result := .ok (some .partials, some .partialMarker, none) }
  | .undefinedType =>
      { effects := [], result := .error "undefined type after Stat call" }

/-- Result of the `index` method: effects plus either a panic message or the
returned error. -/
structure IndexRunResult where
  effects : List Effect
  result : Except String (Option GoError)
deriving Repr

/-- Translation of the `index` method (crawler/index.go): get the properties;
an error matching `t.ErrInvalidResource` diverts to `indexInvalid`, other
errors return; on success the document is written to its index. Writing through
a nil index would be a Go nil-pointer panic. -/
def index (cfg : Config) (rnds : Nat → Fin 7) (lsEntries : List AnnotatedResource)
    (extractorResults : List (Option GoError)) (now : Int) (r : AnnotatedResource) :
    IndexRunResult :=
  let p := getProperties cfg rnds lsEntries extractorResults now r
  match p.result with
  | .error m => { effects := p.effects, result := .error m }
  | .ok (idx?, props?, err?) =>
      match err? with
      | some e =>
          if errorIs e .invalidResource then
            { effects := p.effects ++ [indexInvalid r e], result := .ok none }
          else { effects := p.effects, result := .ok (some e) }
      | none =>
          match idx?, props? with
          | some idx, some props =>
              { effects := p.effects ++ [.indexed idx r.id props], result := .ok none }
          | _, _ => { effects := p.effects, result := .error "nil pointer dereference" }

/-- Translation of `appendReference` (crawler, update file): with no parent the
references are returned unchanged; an already present `(ParentHash, Name)` pair
is not re-added; otherwise the pair is appended and the flag reports a change. -/
def appendReference (refs : List IndexTypes.Reference) (r : Reference) :
    List IndexTypes.Reference × Bool :=
  match r.parent with
  | none => (refs, false)
  | some p =>
      if refs.any fun indexedRef => indexedRef.parentHash == p.id && indexedRef.name == r.name then
        (refs, false)
      else (refs ++ [{ parentHash := p.id, name := r.name }], true)

/-- Modelled from the spec: the Existing-item record materialised from the
bulk-getter probe (its struct is not under src; fields follow the spec data
model and their uses in the update code): the annotated resource, the index the
CID was found in, the stored references and the stored last-seen time. -/
structure ExistingItem where
  annotated : AnnotatedResource
  index : IndexName
  references : List IndexTypes.Reference
  lastSeen : Option Int
deriving DecidableEq, Repr

/-- Translation of `updateExisting` (crawler, update file). Directory-sourced
items get their references reconciled (never touching last-seen); sniffer and
unknown-sourced items get a last-seen refresh when stale; manual and user
sources are no-ops. The Go default branch is a panic on source values outside
the enumeration, which the embedding's exhaustive `SourceType` excludes. -/
def updateExisting (cfg : Config) (now : Int) (i : ExistingItem) :
    List Effect × Option GoError :=
  match i.annotated.source with
  | .directorySource =>
      let ru := appendReference i.references i.annotated.reference
      if ru.2 then
        ([.updated i.index i.annotated.id { lastSeen := none, references := some ru.1 }], none)
      else ([], none)
  | .snifferSource | .unknownSource =>
      let nowT := truncateSec now
      let isRecent :=
        match i.lastSeen with
        | none => true
        | some ls => decide (nowT - ls > cfg.minUpdateAge)
      if isRecent then
        ([.updated i.index i.annotated.id { lastSeen := some nowT, references := none }], none)
      else ([], none)
  | .manualSource | .userSource => ([], none)

/-- Translation of `processPartial` (crawler, update file): an unreferenced
partial is skipped; a referenced partial is first deleted from the `Partials`
index (`deletePartial`, inlined here as the delete effect) and, when the delete
succeeds, reported as not yet processed so it is re-indexed as new. The oracle
`deleteErr` is the result of the `Partials.Delete` call. -/
def processPartialItem (deleteErr : Option GoError) (i : ExistingItem) :
    Bool × List Effect × Option GoError :=
  match i.annotated.reference.parent with
  | none => (true, [], none)
  | some _ =>
      match deleteErr with
      | some e => (true, [.deleted .partials i.annotated.id], some e)
      | none => (false, [.deleted .partials i.annotated.id], none)

/-- Translation of `processExisting` (crawler, update file): items found in
`Invalids` are done; items found in `Partials` go through partial resolution;
items found in `Files` or `Directories` are updated and done. -/
def processExisting (cfg : Config) (now : Int) (deleteErr : Option GoError)
    (i : ExistingItem) : Bool × List Effect × Option GoError :=
  match i.index with
  | .invalids => (true, [], none)
  | .partials => processPartialItem deleteErr i
  | _ =>
      let ue := updateExisting cfg now i
      (true, ue.1, ue.2)

/-- Translation of `updateMaybeExisting` (crawler, update file); the oracle
`existing` is the result of the `getExistingItem` bulk-getter probe across the
four indexes (`none` when the CID is in none of them). -/
def updateMaybeExisting (cfg : Config) (now : Int) (deleteErr : Option GoError)
    (existing : Option ExistingItem) : Bool × List Effect × Option GoError :=
  match existing with
  | none => (false, [], none)
  | some i => processExisting cfg now deleteErr i

/-- Translation of `ensureType` (crawler package): a resource of undefined type
is completed by `protocol.Stat`; the oracles `statErr`, `statType` and
`statSize` are the outcome of that call. -/
def ensureType (statErr : Option GoError) (statType : ResourceType) (statSize : Nat)
    (r : AnnotatedResource) : AnnotatedResource × Option GoError :=
  if r.rtype = .undefinedType then
    match statErr with
    | some e => (r, some e)
    | none => ({ r with rtype := statType, size := statSize }, none)
  else (r, none)

/-- Oracle environment of one `Crawl` call: the configuration plus the results
of every external collaborator the call may consult. -/
structure CrawlEnv where
  cfg : Config
  existing : Option ExistingItem
  deleteErr : Option GoError
  statErr : Option GoError
  statType : ResourceType
  statSize : Nat
  lsEntries : List AnnotatedResource
  rnds : Nat → Fin 7
  extractorResults : List (Option GoError)
  now : Int

/-- Outcome of one `Crawl` call: the effects performed, ending either in a Go
panic or in a returned error. -/
inductive CrawlOutcome where
  | panicked (effects : List Effect) (msg : String)
  | done (effects : List Effect) (err : Option GoError)
deriving DecidableEq, Repr

/-- Prefix the effects already performed onto an outcome. -/
def prependEffects (effs : List Effect) : CrawlOutcome → CrawlOutcome
  | .done e2 err => .done (effs ++ e2) err
  | .panicked e2 m => .panicked (effs ++ e2) m

/-- Translation of the tail of `Crawl` (crawler package) for a resource that
was not found in any index: `ensureType`, diverting invalid-resource stat
failures to `indexInvalid`, then the `index` method. -/
def crawlNew (env : CrawlEnv) (r : AnnotatedResource) : CrawlOutcome :=
  match ensureType env.statErr env.statType env.statSize r with
  | (r2, some e) =>
      if errorIs e .invalidResource then .done [indexInvalid r2 e] none
      else .done [] (some e)
  | (r2, none) =>
      let res := index env.cfg env.rnds env.lsEntries env.extractorResults env.now r2
      match res.result with
      | .ok err2 => .done res.effects err2
      | .error m => .panicked res.effects m

/-- Translation of the body of `Crawl` (crawler package) after the guard:
probe and update a maybe-existing item, stop when it was handled, and
otherwise continue with the new-resource path. -/
def crawlBody (env : CrawlEnv) (r : AnnotatedResource) : CrawlOutcome :=
  let ue := updateMaybeExisting env.cfg env.now env.deleteErr env.existing
  match ue.2.2 with
  | some e => .done ue.2.1 (some e)
  | none =>
      if ue.1 then .done ue.2.1 none
      else prependEffects ue.2.1 (crawlNew env r)

/-- Translation of `Crawl` (crawler package): the guard panics on an invalid
protocol or an unsupported resource type before anything else happens. -/
def Crawl (env : CrawlEnv) (r : AnnotatedResource) : CrawlOutcome :=
  if r.protocol = .invalidProtocol then .panicked [] "invalid protocol"
  else if isSupportedType r.rtype then crawlBody env r
  else .panicked [] "invalid type for crawler"

/-- A provider-record event emitted on the sniffer bus
(eventsource package `EvtProviderPut`; the span context is tracing-only). -/
structure EvtProviderPut where
  cid : String
  peerID : String
deriving DecidableEq, Repr

/-- Translation of `afterPut` (eventsource package). The key-shaped inputs are
oracles for the helpers the hook calls on the datastore key: `isProviderKey`
for the prefix check, `cidResult` and `pidResult` for `keyToCID` and
`keyToPeerID`, and `emitErr` for the bus `Emit` call. The returned pair is the
hook's returned error and the events delivered on the bus. -/
def afterPut (err : Option GoError) (isProviderKey : Bool)
    (cidResult : Except GoError String) (pidResult : Except GoError String)
    (emitErr : Option GoError) : Option GoError × List EvtProviderPut :=
  match err with
  | some e => (some e, [])
  | none =>
      if isProviderKey then
        match cidResult with
        | .error _ => (none, [])
        | .ok cid =>
            match pidResult with
            | .error _ => (none, [])
            | .ok pid =>
                match emitErr with
                | some _ => (none, [])
                | none => (none, [{ cid := cid, peerID := pid }])
      else (none, [])

/-- Effects carried by a crawl outcome, whether it finished or panicked. -/
def CrawlOutcome.effects : CrawlOutcome → List Effect
  | .done e _ => e
  | .panicked e _ => e

/-!
Specification vocabulary: closed-form descriptions of the values the embedded
code computes, used to state the claims. These are not translations of source
functions; each is tied to the source by the lemmas below.
-/

/-- Link type assigned to a child of the given resource type (total companion
of `resourceToLinkType`; the `partialType` value is never consulted, since a
partial-typed child makes the source panic before building a link). -/
def linkTypeOf : ResourceType → IndexTypes.LinkType
  | .fileType => .fileLinkType
  | .directoryType => .directoryLinkType
  | .undefinedType => .unknownLinkType
  | _ => .unsupportedLinkType

/-- The directory link built for a child entry. -/
def mkLink (e : AnnotatedResource) : IndexTypes.Link :=
  { hash := e.id, name := e.reference.name, size := e.size, linkType := linkTypeOf e.rtype }

/-- The queue a child of the given type is dispatched to (meaningful for the
three queueable types). -/
def dispatchQueue : ResourceType → QueueName
  | .fileType => .files
  | .directoryType => .directories
  | _ => .hashes

/-- The queue effects produced for a list of children starting at entry counter
`i`: the child at position `j` of the list is published with priority
`1 + rnds (i + j)`, its own independent draw. -/
def childQueueEffects (rnds : Nat → Fin 7) : Nat → List AnnotatedResource → List Effect
  | _, [] => []
  | i, e :: rest =>
      .queued (dispatchQueue e.rtype) e (1 + (rnds i).val) :: childQueueEffects rnds (i + 1) rest

/-- The links accumulated by the directory loop from counter `c` with
large-flag `b`. -/
def takenLinks (m : Nat) : Nat → Bool → List AnnotatedResource → List IndexTypes.Link
  | _, _, [] => []
  | c, b, e :: rest =>
      let b := b || decide (c = m)
      (if b then [] else [mkLink e]) ++ takenLinks m (c + 1) b rest

/-- The value of the `isLarge` flag after the loop processes `n` entries
starting at counter `c` with flag `b`. -/
def largeAfter (m : Nat) : Nat → Bool → Nat → Bool
  | _, b, 0 => b
  | c, b, n + 1 => largeAfter m (c + 1) (b || decide (c = m)) n

/-- Whether an effect is an index delete. -/
def isDeleteOp : Effect → Bool
  | .deleted _ _ => true
  | _ => false

/-- Go `errors.Is` applied to a possibly-nil error value. -/
def optErrorIs : Option GoError → GoError → Bool
  | some e, t => errorIs e t
  | none, _ => false

/-- The membership test `appendReference` performs: is the `(ParentHash, Name)`
pair already among the stored references. -/
def containsPair (refs : List IndexTypes.Reference) (pair : IndexTypes.Reference) : Bool :=
  refs.any fun indexedRef => indexedRef.parentHash == pair.parentHash && indexedRef.name == pair.name

/-- The last element of a result list, or the seed when the list is empty: the
value left in the `err` variable after the extractor loop. -/
def lastErr : List (Option GoError) → Option GoError → Option GoError
  | [], e => e
  | x :: rest, _ => lastErr rest x

/-!
Helper lemmas tying the vocabulary to the embedded code.
-/

theorem addLink_ok (e : AnnotatedResource) (links : List IndexTypes.Link)
    (h : isSupportedType e.rtype = true) : addLink e links = .ok (links ++ [mkLink e]) := by
  cases he : e.rtype <;>
    simp_all [isSupportedType, addLink, resourceToLinkType, mkLink, linkTypeOf, he]

theorem queueDirEntry_ok (e : AnnotatedResource) (rnd : Fin 7)
    (h : isSupportedType e.rtype = true) :
    queueDirEntry e rnd = .ok (.queued (dispatchQueue e.rtype) e (1 + rnd.val)) := by
  cases he : e.rtype <;>
    simp_all [isSupportedType, queueDirEntry, dispatchQueue, he]

theorem queueDirEntry_not_delete (e : AnnotatedResource) (rnd : Fin 7) (eff : Effect)
    (h : queueDirEntry e rnd = .ok eff) : isDeleteOp eff = false := by
  cases he : e.rtype <;> simp_all [queueDirEntry, he, indexInvalid] <;>
    simp [← h, isDeleteOp]

theorem processDirEntriesAux_spec (m : Nat) (rnds : Nat → Fin 7) :
    ∀ (entries : List AnnotatedResource) (dirCnt : Nat) (isLarge : Bool)
      (links : List IndexTypes.Link) (effs : List Effect),
      (∀ e ∈ entries, isSupportedType e.rtype = true) →
      processDirEntriesAux m rnds entries dirCnt isLarge links effs =
        { links := links ++ takenLinks m dirCnt isLarge entries
          effects := effs ++ childQueueEffects rnds dirCnt entries
          result := .ok (if largeAfter m dirCnt isLarge entries.length
            then some ErrDirectoryTooLarge else none) } := by
  intro entries
  induction entries with
  | nil =>
      intro dirCnt isLarge links effs _
      simp [processDirEntriesAux, takenLinks, childQueueEffects, largeAfter]
  | cons e rest ih =>
      intro dirCnt isLarge links effs h
      have he : isSupportedType e.rtype = true := h e (List.mem_cons_self e rest)
      have hrest : ∀ x ∈ rest, isSupportedType x.rtype = true :=
        fun x hx => h x (List.mem_cons_of_mem e hx)
      cases hbig : (isLarge || decide (dirCnt = m)) with
      | false =>
          have hstep := ih (dirCnt + 1) false (links ++ [mkLink e])
            (effs ++ [Effect.queued (dispatchQueue e.rtype) e (1 + (rnds dirCnt).val)]) hrest
          simp only [processDirEntriesAux, hbig, addLink_ok e links he,
            queueDirEntry_ok e (rnds dirCnt) he]
          simp [hstep, takenLinks, childQueueEffects, largeAfter, hbig, List.append_assoc]
      | true =>
          have hstep := ih (dirCnt + 1) true links
            (effs ++ [Effect.queued (dispatchQueue e.rtype) e (1 + (rnds dirCnt).val)]) hrest
          simp only [processDirEntriesAux, hbig, queueDirEntry_ok e (rnds dirCnt) he]
          simp [hstep, takenLinks, childQueueEffects, largeAfter, hbig, List.append_assoc]

theorem largeAfter_eq (m : Nat) :
    ∀ (n c : Nat) (b : Bool), largeAfter m c b n = (b || decide (c ≤ m ∧ m < c + n)) := by
  intro n
  induction n with
  | zero =>
      intro c b
      have hfalse : ¬(c ≤ m ∧ m < c + 0) := by omega
      simp [largeAfter, hfalse]
  | succ n ih =>
      intro c b
      rw [largeAfter, ih]
      rcases Decidable.em (c = m) with h1 | h1 <;>
        rcases Decidable.em (c + 1 ≤ m ∧ m < c + 1 + n) with h2 | h2 <;>
        rcases Decidable.em (c ≤ m ∧ m < c + (n + 1)) with h3 | h3 <;>
        simp [h1, h2, h3, Bool.or_assoc] <;> omega

theorem takenLinks_small (m : Nat) :
    ∀ (entries : List AnnotatedResource) (c : Nat), c + entries.length ≤ m →
      takenLinks m c false entries = entries.map mkLink := by
  intro entries
  induction entries with
  | nil => intro c _; simp [takenLinks]
  | cons e rest ih =>
      intro c h
      have hc : decide (c = m) = false := by
        simp only [List.length_cons] at h
        simp; omega
      have hrest : c + 1 + rest.length ≤ m := by
        simp only [List.length_cons] at h
        omega
      simp [takenLinks, hc, ih (c + 1) hrest]

theorem childQueueEffects_length (rnds : Nat → Fin 7) :
    ∀ (entries : List AnnotatedResource) (s : Nat),
      (childQueueEffects rnds s entries).length = entries.length := by
  intro entries
  induction entries with
  | nil => intro s; simp [childQueueEffects]
  | cons e rest ih => intro s; simp [childQueueEffects, ih (s + 1)]

theorem childQueueEffects_getElem (rnds : Nat → Fin 7) :
    ∀ (entries : List AnnotatedResource) (s i : Nat) (h : i < entries.length),
      (childQueueEffects rnds s entries)[i]? =
        some (.queued (dispatchQueue entries[i].rtype) entries[i] (1 + (rnds (s + i)).val)) := by
  intro entries
  induction entries with
  | nil => intro s i h; simp at h
  | cons e rest ih =>
      intro s i h
      cases i with
      | zero => simp [childQueueEffects]
      | succ i =>
          have h2 : i < rest.length := by simpa using h
          have hs : s + (i + 1) = (s + 1) + i := by omega
          simp [childQueueEffects, ih (s + 1) i h2, hs]

theorem childQueueEffects_queued (rnds : Nat → Fin 7) :
    ∀ (entries : List AnnotatedResource) (s : Nat) (x : Effect),
      x ∈ childQueueEffects rnds s entries → ∃ q r p, x = .queued q r p := by
  intro entries
  induction entries with
  | nil => intro s x hx; simp [childQueueEffects] at hx
  | cons e rest ih =>
      intro s x hx
      rcases List.mem_cons.mp hx with hx | hx
      · exact ⟨_, _, _, hx⟩
      · exact ih (s + 1) x hx

theorem processDirEntriesAux_no_delete (m : Nat) (rnds : Nat → Fin 7) :
    ∀ (entries : List AnnotatedResource) (c : Nat) (b : Bool)
      (links : List IndexTypes.Link) (effs : List Effect),
      (∀ x ∈ effs, isDeleteOp x = false) →
      ∀ x ∈ (processDirEntriesAux m rnds entries c b links effs).effects,
        isDeleteOp x = false := by
  intro entries
  induction entries with
  | nil => intro c b links effs h; simpa [processDirEntriesAux] using h
  | cons e rest ih =>
      intro c b links effs h
      simp only [processDirEntriesAux]
      split
      · simpa using h
      · split
        · simpa using h
        · rename_i heff
          apply ih
          intro x hx
          rcases List.mem_append.mp hx with hx | hx
          · exact h x hx
          · rw [List.mem_singleton] at hx
            subst hx
            exact queueDirEntry_not_delete e (rnds c) x heff

theorem getProperties_no_delete (cfg : Config) (rnds : Nat → Fin 7)
    (lsEntries : List AnnotatedResource) (extractorResults : List (Option GoError))
    (now : Int) (r : AnnotatedResource) :
    ∀ x ∈ (getProperties cfg rnds lsEntries extractorResults now r).effects,
      isDeleteOp x = false := by
  intro x hx
  cases hr : r.rtype <;> simp only [getProperties, hr] at hx
  case directoryType =>
    split at hx <;>
      exact processDirEntriesAux_no_delete cfg.maxDirSize rnds lsEntries 0 false [] []
        (by intro y hy; simp at hy) x hx
  all_goals simp at hx

theorem index_no_delete (cfg : Config) (rnds : Nat → Fin 7)
    (lsEntries : List AnnotatedResource) (extractorResults : List (Option GoError))
    (now : Int) (r : AnnotatedResource) :
    ∀ x ∈ (index cfg rnds lsEntries extractorResults now r).effects,
      isDeleteOp x = false := by
  intro x hx
  have hp := getProperties_no_delete cfg rnds lsEntries extractorResults now r
  simp only [index] at hx
  split at hx
  · exact hp x hx
  · split at hx
    · split at hx
      · rcases List.mem_append.mp hx with h | h
        · exact hp x h
        · rw [List.mem_singleton] at h; subst h; simp [indexInvalid, isDeleteOp]
      · exact hp x hx
    · split at hx
      · rcases List.mem_append.mp hx with h | h
        · exact hp x h
        · rw [List.mem_singleton] at h; subst h; simp [isDeleteOp]
      · exact hp x hx

theorem crawlNew_no_delete (env : CrawlEnv) (r : AnnotatedResource) :
    ∀ x ∈ (crawlNew env r).effects, isDeleteOp x = false := by
  intro x hx
  simp only [crawlNew] at hx
  split at hx
  · split at hx
    · simp only [CrawlOutcome.effects] at hx
      rw [List.mem_singleton] at hx
      subst hx
      simp [indexInvalid, isDeleteOp]
    · simp [CrawlOutcome.effects] at hx
  · split at hx <;>
      exact index_no_delete env.cfg env.rnds env.lsEntries env.extractorResults env.now _ x
        (by simpa [CrawlOutcome.effects] using hx)

theorem extractLoop_no_ftl (doc : IndexTypes.File) :
    ∀ (results : List (Option GoError)) (err0 : Option GoError),
      (∀ x ∈ results, optErrorIs x .fileTooLarge = false) →
      extractLoop doc results err0 = (some doc, lastErr results err0) := by
  intro results
  induction results with
  | nil => intro err0 _; simp [extractLoop, lastErr]
  | cons e rest ih =>
      intro err0 h
      cases e with
      | none =>
          simp [extractLoop, lastErr, ih none fun x hx => h x (List.mem_cons_of_mem _ hx)]
      | some g =>
          have hg : errorIs g .fileTooLarge = false := by
            simpa [optErrorIs] using h (some g) (List.mem_cons_self _ _)
          simp [extractLoop, lastErr, hg,
            ih (some g) fun x hx => h x (List.mem_cons_of_mem _ hx)]

theorem extractLoop_ftl (doc : IndexTypes.File) (g : GoError)
    (post : List (Option GoError)) (hg : errorIs g .fileTooLarge = true) :
    ∀ (pre : List (Option GoError)) (err0 : Option GoError),
      (∀ x ∈ pre, optErrorIs x .fileTooLarge = false) →
      extractLoop doc (pre ++ some g :: post) err0 =
        (none, some (.wrapped .invalidResource
          (errorString GoError.invalidResource ++ ": " ++ errorString g))) := by
  intro pre
  induction pre with
  | nil => intro err0 _; simp [extractLoop, hg]
  | cons e rest ih =>
      intro err0 h
      cases e with
      | none =>
          simpa [extractLoop] using ih none fun x hx => h x (List.mem_cons_of_mem _ hx)
      | some g2 =>
          have hg2 : errorIs g2 .fileTooLarge = false := by
            simpa [optErrorIs] using h (some g2) (List.mem_cons_self _ _)
          simpa [extractLoop, hg2] using ih (some g2) fun x hx => h x (List.mem_cons_of_mem _ hx)

theorem appendReference_parent (refs : List IndexTypes.Reference) (r : Reference)
    (p : Resource) (hp : r.parent = some p) :
    appendReference refs r =
      if containsPair refs { parentHash := p.id, name := r.name } then (refs, false)
      else (refs ++ [{ parentHash := p.id, name := r.name }], true) := by
  simp [appendReference, hp, containsPair]

theorem appendReference_nodup (refs : List IndexTypes.Reference) (r : Reference)
    (h : refs.Nodup) : (appendReference refs r).1.Nodup := by
  cases hp : r.parent with
  | none => simpa [appendReference, hp] using h
  | some p =>
      by_cases hc :
        (refs.any fun indexedRef => indexedRef.parentHash == p.id && indexedRef.name == r.name) = true
      · simpa [appendReference, hp, hc] using h
      · simp only [appendReference, hp]
        rw [if_neg hc]
        refine List.Nodup.append h (List.nodup_singleton _) ?_
        intro a ha hb
        rw [List.mem_singleton] at hb
        subst hb
        apply hc
        rw [List.any_eq_true]
        exact ⟨_, ha, by simp⟩

theorem prependEffects_nil (o : CrawlOutcome) : prependEffects [] o = o := by
  cases o <;> simp [prependEffects]

theorem Crawl_valid (env : CrawlEnv) (r : AnnotatedResource)
    (hp : r.protocol ≠ .invalidProtocol) (ht : isSupportedType r.rtype = true) :
    Crawl env r = crawlBody env r := by
  simp [Crawl, hp, ht]

theorem crawlBody_none (env : CrawlEnv) (r : AnnotatedResource)
    (hex : env.existing = none) : crawlBody env r = crawlNew env r := by
  simp [crawlBody, updateMaybeExisting, hex, prependEffects_nil]

theorem index_directory (cfg : Config) (rnds : Nat → Fin 7)
    (lsEntries : List AnnotatedResource) (extractorResults : List (Option GoError))
    (now : Int) (r : AnnotatedResource) (hr : r.rtype = .directoryType)
    (hq : ∀ e ∈ lsEntries, isSupportedType e.rtype = true) :
    index cfg rnds lsEntries extractorResults now r =
      if lsEntries.length ≤ cfg.maxDirSize then
        { effects := childQueueEffects rnds 0 lsEntries ++
            [.indexed .directories r.id (.dirDoc
              { document := makeDocument now r, links := lsEntries.map mkLink })]
          result := .ok none }
      else
        { effects := childQueueEffects rnds 0 lsEntries ++ [indexInvalid r ErrDirectoryTooLarge]
          result := .ok none } := by
  have hspec := processDirEntriesAux_spec cfg.maxDirSize rnds lsEntries 0 false [] [] hq
  by_cases hlen : lsEntries.length ≤ cfg.maxDirSize
  · have hlarge : largeAfter cfg.maxDirSize 0 false lsEntries.length = false := by
      rw [largeAfter_eq]
      simp
      omega
    have hlinks := takenLinks_small cfg.maxDirSize lsEntries 0 (by omega)
    simp [index, getProperties, hr, processDirEntries, hspec, hlarge, hlinks, hlen]
  · have hlarge : largeAfter cfg.maxDirSize 0 false lsEntries.length = true := by
      rw [largeAfter_eq]
      simp
      omega
    have hinv : errorIs ErrDirectoryTooLarge .invalidResource = true := by decide
    simp [index, getProperties, hr, processDirEntries, hspec, hlarge, hlen, hinv]

theorem errorIs_wrapped_invalidResource (msg : String) :
    errorIs (GoError.wrapped .invalidResource msg) .invalidResource = true := by
  simp [errorIs]

/-!
Concrete inputs used by witnesses and counterexamples.
-/

/-- A file-typed child of a crawled directory. -/
def childFileW : AnnotatedResource :=
  { protocol := .ipfsProtocol, id := "QmChildFile", source := .directorySource
    reference := { parent := some { protocol := .ipfsProtocol, id := "QmDirParent" }, name := "a.txt" }
    rtype := .fileType, size := 5 }

/-- A directory-typed child of a crawled directory. -/
def childDirW : AnnotatedResource :=
  { protocol := .ipfsProtocol, id := "QmChildDir", source := .directorySource
    reference := { parent := some { protocol := .ipfsProtocol, id := "QmDirParent" }, name := "sub" }
    rtype := .directoryType, size := 0 }

/-- A directory resource being crawled. -/
def rDirW : AnnotatedResource :=
  { protocol := .ipfsProtocol, id := "QmDirParent", source := .snifferSource
    reference := { parent := none, name := "" }, rtype := .directoryType, size := 0 }

/-- Environment for the C1 witness: two children, `MaxDirSize = 2`. -/
def envC1w : CrawlEnv :=
  { cfg := { maxDirSize := 2, minUpdateAge := 0 }, existing := none, deleteErr := none
    statErr := none, statType := .directoryType, statSize := 0
    lsEntries := [childFileW, childDirW], rnds := fun _ => 3, extractorResults := [], now := 0 }

/-- An empty directory resource for the C6 counterexample. -/
def rEmptyDirW : AnnotatedResource :=
  { protocol := .ipfsProtocol, id := "QmEmptyDir", source := .snifferSource
    reference := { parent := none, name := "" }, rtype := .directoryType, size := 0 }

/-- Environment for the C6 counterexample: `MaxDirSize = 0` and an empty
directory. -/
def envC6cex : CrawlEnv :=
  { cfg := { maxDirSize := 0, minUpdateAge := 0 }, existing := none, deleteErr := none
    statErr := none, statType := .directoryType, statSize := 0
    lsEntries := [], rnds := fun _ => 0, extractorResults := [], now := 0 }

/-- Environment for the C6 witness: `MaxDirSize = 0` and one child. -/
def envC6w : CrawlEnv :=
  { cfg := { maxDirSize := 0, minUpdateAge := 0 }, existing := none, deleteErr := none
    statErr := none, statType := .directoryType, statSize := 0
    lsEntries := [childFileW], rnds := fun _ => 5, extractorResults := [], now := 0 }

/-!
Claims.
-/

/-- C1: for every directory with `k` enumerated children, if `k ≤ MaxDirSize`
then crawling it produces a `Directory` document whose `Links` has length
exactly `k`, written to the `Directories` index; if `k > MaxDirSize` no
`Directory` document is written and instead an `Invalids` document whose error
string is `directory too large` is written; in both cases all `k` children are
dispatched to their queues, the child at position `i` with its own random
priority `1 + rnds i`. (The children are assumed to be of the queueable types
`Undefined`, `File`, `Directory`; an `Unsupported` child is dispatched by an
immediate `Invalids` write instead, per the source of `queueDirEntry`.) -/
theorem directory_cutoff_C1 (env : CrawlEnv) (r : AnnotatedResource)
    (hp : r.protocol ≠ .invalidProtocol) (ht : r.rtype = .directoryType)
    (hex : env.existing = none)
    (hq : ∀ e ∈ env.lsEntries, isSupportedType e.rtype = true) :
    (env.lsEntries.length ≤ env.cfg.maxDirSize →
      Crawl env r = .done (childQueueEffects env.rnds 0 env.lsEntries ++
        [.indexed .directories r.id (.dirDoc
          { document := makeDocument env.now r, links := env.lsEntries.map mkLink })]) none ∧
      (env.lsEntries.map mkLink).length = env.lsEntries.length) ∧
    (env.cfg.maxDirSize < env.lsEntries.length →
      Crawl env r = .done (childQueueEffects env.rnds 0 env.lsEntries ++
        [.indexed .invalids r.id (.invalidDoc "directory too large")]) none ∧
      ∀ doc, Effect.indexed .directories r.id doc ∉
        childQueueEffects env.rnds 0 env.lsEntries ++
          [Effect.indexed .invalids r.id (.invalidDoc "directory too large")]) ∧
    (childQueueEffects env.rnds 0 env.lsEntries).length = env.lsEntries.length ∧
    ∀ (i : Nat) (hi : i < env.lsEntries.length),
      (childQueueEffects env.rnds 0 env.lsEntries)[i]? =
        some (.queued (dispatchQueue env.lsEntries[i].rtype) env.lsEntries[i]
          (1 + (env.rnds i).val)) := by
  have ht' : isSupportedType r.rtype = true := by rw [ht]; rfl
  have hens : ensureType env.statErr env.statType env.statSize r = (r, none) := by
    simp [ensureType, ht]
  have hidx := index_directory env.cfg env.rnds env.lsEntries env.extractorResults env.now r ht hq
  have hcrawl : Crawl env r = crawlNew env r := by
    rw [Crawl_valid env r hp ht', crawlBody_none env r hex]
  refine ⟨?_, ?_, ?_, ?_⟩
  · intro hle
    refine ⟨?_, by simp⟩
    rw [hcrawl]
    simp only [crawlNew, hens]
    simp [hidx, hle]
  · intro hgt
    have hle : ¬ env.lsEntries.length ≤ env.cfg.maxDirSize := by omega
    refine ⟨?_, ?_⟩
    · rw [hcrawl]
      simp only [crawlNew, hens]
      simp [hidx, hle, indexInvalid, ErrDirectoryTooLarge, errorString]
    · intro doc hmem
      rcases List.mem_append.mp hmem with hmem | hmem
      · rcases childQueueEffects_queued env.rnds env.lsEntries 0 _ hmem with ⟨q, r2, pr, hEq⟩
        simp at hEq
      · simp at hmem
  · exact childQueueEffects_length env.rnds env.lsEntries 0
  · intro i hi
    simpa using childQueueEffects_getElem env.rnds env.lsEntries 0 i hi

/-- C1 witness: with `MaxDirSize = 2` and two queueable children, the crawl
finishes with the two queue publishes followed by one `Directories` write whose
links are the two children. -/
theorem directory_cutoff_C1_witness :
    Crawl envC1w rDirW = .done (childQueueEffects envC1w.rnds 0 envC1w.lsEntries ++
      [.indexed .directories rDirW.id (.dirDoc
        { document := makeDocument envC1w.now rDirW
          links := envC1w.lsEntries.map mkLink })]) none :=
  ((directory_cutoff_C1 envC1w rDirW (by decide) rfl rfl (by decide)).1 (by decide)).1

/-- C6 counterexample: with `MaxDirSize = 0`, crawling a directory with zero
children writes a `Directory` document (with empty links) to the `Directories`
index, contradicting the claim that no `Directory` document is ever written.
The `isLarge` flag of the loop is only set while handling an entry, so an empty
directory never sets it. -/
theorem maxdirsize_zero_C6_counterexample :
    Crawl envC6cex rEmptyDirW =
      .done [Effect.indexed .directories "QmEmptyDir" (.dirDoc
        { document := { firstSeen := 0, lastSeen := 0, references := [], size := 0 }
          links := [] })] none := by
  decide

/-- C6 (amended): with `MaxDirSize = 0`, every directory with at least one
enumerated child yields the directory-too-large outcome — no `Directory`
document is written, an `Invalids` document with error `directory too large` is
written, and the children are still enumerated and queued; a directory with
zero children is the exception: it still yields a `Directory` document with
empty links. -/
theorem maxdirsize_zero_C6 (env : CrawlEnv) (r : AnnotatedResource)
    (hp : r.protocol ≠ .invalidProtocol) (ht : r.rtype = .directoryType)
    (hex : env.existing = none) (hm : env.cfg.maxDirSize = 0)
    (hq : ∀ e ∈ env.lsEntries, isSupportedType e.rtype = true) :
    (0 < env.lsEntries.length →
      Crawl env r = .done (childQueueEffects env.rnds 0 env.lsEntries ++
        [.indexed .invalids r.id (.invalidDoc "directory too large")]) none ∧
      (∀ doc, Effect.indexed .directories r.id doc ∉
        childQueueEffects env.rnds 0 env.lsEntries ++
          [Effect.indexed .invalids r.id (.invalidDoc "directory too large")]) ∧
      (childQueueEffects env.rnds 0 env.lsEntries).length = env.lsEntries.length) ∧
    (env.lsEntries.length = 0 →
      Crawl env r = .done [Effect.indexed .directories r.id (.dirDoc
        { document := makeDocument env.now r, links := [] })] none) := by
  have ht' : isSupportedType r.rtype = true := by rw [ht]; rfl
  have hens : ensureType env.statErr env.statType env.statSize r = (r, none) := by
    simp [ensureType, ht]
  have hidx := index_directory env.cfg env.rnds env.lsEntries env.extractorResults env.now r ht hq
  have hcrawl : Crawl env r = crawlNew env r := by
    rw [Crawl_valid env r hp ht', crawlBody_none env r hex]
  constructor
  · intro hpos
    have hle : ¬ env.lsEntries.length ≤ env.cfg.maxDirSize := by omega
    refine ⟨?_, ?_, childQueueEffects_length env.rnds env.lsEntries 0⟩
    · rw [hcrawl]
      simp only [crawlNew, hens]
      simp [hidx, hle, indexInvalid, ErrDirectoryTooLarge, errorString]
    · intro doc hmem
      rcases List.mem_append.mp hmem with hmem | hmem
      · rcases childQueueEffects_queued env.rnds env.lsEntries 0 _ hmem with ⟨q, r2, pr, hEq⟩
        simp at hEq
      · simp at hmem
  · intro hzero
    have hnil : env.lsEntries = [] := List.length_eq_zero.mp hzero
    rw [hnil] at hidx
    rw [hcrawl]
    simp only [crawlNew, hens]
    rw [hnil]
    simp [hidx, childQueueEffects]

/-- C6 witness (for the amended claim): with `MaxDirSize = 0` and one child,
the crawl queues the child and writes only the `Invalids` document. -/
theorem maxdirsize_zero_C6_witness :
    Crawl envC6w rDirW = .done (childQueueEffects envC6w.rnds 0 envC6w.lsEntries ++
      [.indexed .invalids rDirW.id (.invalidDoc "directory too large")]) none :=
  ((maxdirsize_zero_C6 envC6w rDirW (by decide) rfl rfl rfl (by decide)).1 (by decide)).1

/-- A file resource crawled for the first time, used by the C2 theorems. -/
def rFileC2 : AnnotatedResource :=
  { protocol := .ipfsProtocol, id := "QmFileTwo", source := .snifferSource
    reference := { parent := none, name := "" }, rtype := .fileType, size := 7 }

/-- Environment for the C2 counterexample: the first extractor fails with a
generic error, the second succeeds. -/
def envFileC2 : CrawlEnv :=
  { cfg := { maxDirSize := 10, minUpdateAge := 0 }, existing := none, deleteErr := none
    statErr := none, statType := .fileType, statSize := 7, lsEntries := []
    rnds := fun _ => 0, extractorResults := [some (.generic "extractor one failed"), none]
    now := 0 }

/-- C2 counterexample: the first extractor fails with a non-file-too-large
error and the second succeeds; the loop overwrites the error, the crawl
finishes without error and a `Files` document IS written — contradicting the
claim that any non-file-too-large extractor error propagates out with no
`Files` write. -/
theorem extractor_error_lost_C2_counterexample :
    (getFileProperties [some (.generic "extractor one failed"), none] 0 rFileC2).2 = none ∧
    Crawl envFileC2 rFileC2 =
      .done [Effect.indexed .files "QmFileTwo" (.fileDoc
        { document := { firstSeen := 0, lastSeen := 0, references := [], size := 7 } })] none :=
  ⟨by decide, by decide⟩

/-- C2 (amended): the extractor chain is invoked in order; a file-too-large
failure stops the chain, classifies the resource as invalid and indexes it into
`Invalids`; otherwise each extractor's result overwrites the previous error, so
the error leaving the file path is the LAST extractor's result only — a
non-file-too-large error from an earlier extractor is discarded when a later
extractor succeeds; when the last extractor's non-file-too-large error remains,
it propagates (retryable) and no `Files` document is written. -/
theorem extractor_chain_C2 (cfg : Config) (rnds : Nat → Fin 7)
    (lsEntries : List AnnotatedResource) (now : Int) (r : AnnotatedResource)
    (results : List (Option GoError)) (ht : r.rtype = .fileType)
    (hnoftl : ∀ x ∈ results, optErrorIs x .fileTooLarge = false) :
    (getFileProperties results now r).2 = lastErr results none ∧
    (∀ g post, errorIs g .fileTooLarge = true →
      getFileProperties (results ++ some g :: post) now r =
        (none, some (.wrapped .invalidResource
          (errorString GoError.invalidResource ++ ": " ++ errorString g))) ∧
      index cfg rnds lsEntries (results ++ some g :: post) now r =
        { effects := [.indexed .invalids r.id (.invalidDoc
            (errorString GoError.invalidResource ++ ": " ++ errorString g))]
          result := .ok none }) ∧
    (∀ g, lastErr results none = some g → errorIs g .invalidResource = false →
      index cfg rnds lsEntries results now r = { effects := [], result := .ok (some g) }) ∧
    (lastErr results none = none →
      index cfg rnds lsEntries results now r =
        { effects := [.indexed .files r.id (.fileDoc { document := makeDocument now r })]
          result := .ok none }) := by
  have hloop := extractLoop_no_ftl { document := makeDocument now r } results none hnoftl
  refine ⟨?_, ?_, ?_, ?_⟩
  · simp [getFileProperties, hloop]
  · intro g post hgf
    have hsc := extractLoop_ftl { document := makeDocument now r } g post hgf results none hnoftl
    constructor
    · simp [getFileProperties, hsc]
    · simp [index, getProperties, ht, getFileProperties, hsc,
        errorIs_wrapped_invalidResource, indexInvalid, errorString]
  · intro g hg hni
    simp [index, getProperties, ht, getFileProperties, hloop, hg, hni]
  · intro hnone
    simp [index, getProperties, ht, getFileProperties, hloop, hnone]

/-- C2 witness (for the amended claim): an early generic extractor failure
followed by a success leaves no propagating error and the `Files` document is
written. -/
theorem extractor_chain_C2_witness :
    index { maxDirSize := 10, minUpdateAge := 0 } (fun _ => 0) []
        [some (.generic "boom"), none] 0 rFileC2 =
      { effects := [.indexed .files rFileC2.id (.fileDoc { document := makeDocument 0 rFileC2 })]
        result := .ok none } :=
  (extractor_chain_C2 { maxDirSize := 10, minUpdateAge := 0 } (fun _ => 0) [] 0 rFileC2
    [some (.generic "boom"), none] rfl (by decide)).2.2.2 (by decide)

/-- The resource whose crawl finds `itemC3w` in `Partials`. -/
def rC3w : AnnotatedResource :=
  { protocol := .ipfsProtocol, id := "QmPartialX", source := .directorySource
    reference := { parent := some { protocol := .ipfsProtocol, id := "QmParent3" }, name := "x.bin" }
    rtype := .fileType, size := 9 }

/-- An item found in the `Partials` index with a non-nil incoming parent. -/
def itemC3w : ExistingItem :=
  { annotated := rC3w, index := .partials, references := [], lastSeen := none }

/-- Environment for the C3 witness. -/
def envC3w : CrawlEnv :=
  { cfg := { maxDirSize := 4, minUpdateAge := 0 }, existing := some itemC3w, deleteErr := none
    statErr := none, statType := .fileType, statSize := 9, lsEntries := []
    rnds := fun _ => 2, extractorResults := [], now := 0 }

/-- C3: a resource found in `Partials` with a nil incoming parent stops with no
write; with a non-nil parent the CID is deleted from `Partials` exactly once
(the continuation never deletes again) and processing continues exactly as if
the resource were new (the crawl equals the fresh crawl with the delete
prefixed, and a fresh crawl on an environment differing only in the probe
result behaves identically). -/
theorem partial_resolution_C3 (env : CrawlEnv) (r : AnnotatedResource) (i : ExistingItem)
    (hp : r.protocol ≠ .invalidProtocol) (ht : isSupportedType r.rtype = true)
    (hex : env.existing = some i) (hidx : i.index = .partials)
    (hdel : env.deleteErr = none) :
    (i.annotated.reference.parent = none → Crawl env r = .done [] none) ∧
    ∀ p, i.annotated.reference.parent = some p →
      Crawl env r = prependEffects [Effect.deleted .partials i.annotated.id] (crawlNew env r) ∧
      Crawl { env with existing := none } r = crawlNew env r ∧
      Effect.deleted .partials i.annotated.id ∉ (crawlNew env r).effects := by
  constructor
  · intro hpar
    rw [Crawl_valid env r hp ht]
    simp [crawlBody, updateMaybeExisting, hex, processExisting, hidx, processPartialItem, hpar]
  · intro p hpar
    refine ⟨?_, ?_, ?_⟩
    · rw [Crawl_valid env r hp ht]
      simp [crawlBody, updateMaybeExisting, hex, processExisting, hidx, processPartialItem,
        hpar, hdel]
    · rw [Crawl_valid _ r hp ht, crawlBody_none _ r rfl]
      rfl
    · intro hmem
      have hfalse := crawlNew_no_delete env r _ hmem
      simp [isDeleteOp] at hfalse

/-- C3 witness: a referenced partial is crawled as the fresh crawl with the
`Partials` delete prefixed. -/
theorem partial_resolution_C3_witness :
    Crawl envC3w rC3w =
      prependEffects [Effect.deleted .partials itemC3w.annotated.id] (crawlNew envC3w rC3w) :=
  ((partial_resolution_C3 envC3w rC3w itemC3w (by decide) (by decide) rfl rfl rfl).2
    { protocol := .ipfsProtocol, id := "QmParent3" } rfl).1

/-- C4: for an existing item re-seen with source `Directory` and a non-nil
parent, the new references equal the old with the `(ParentHash, Name)` pair
appended exactly when the pair was not already present; the references list
stays free of duplicate pairs; a partial update carrying only the new
references (never a `LastSeen` field) is issued exactly when the pair was
new. -/
theorem reference_update_C4 (cfg : Config) (now : Int) (i : ExistingItem) (p : Resource)
    (hsrc : i.annotated.source = .directorySource)
    (hpar : i.annotated.reference.parent = some p) :
    (containsPair i.references { parentHash := p.id, name := i.annotated.reference.name } = false →
      updateExisting cfg now i =
        ([.updated i.index i.annotated.id
            { lastSeen := none
              references := some (i.references ++
                [{ parentHash := p.id, name := i.annotated.reference.name }]) }], none)) ∧
    (containsPair i.references { parentHash := p.id, name := i.annotated.reference.name } = true →
      updateExisting cfg now i = ([], none)) ∧
    (i.references.Nodup → (appendReference i.references i.annotated.reference).1.Nodup) ∧
    (∀ idx id upd, Effect.updated idx id upd ∈ (updateExisting cfg now i).1 →
      upd.lastSeen = none) := by
  have happ := appendReference_parent i.references i.annotated.reference p hpar
  refine ⟨?_, ?_, fun h => appendReference_nodup i.references i.annotated.reference h, ?_⟩
  · intro hc
    simp [updateExisting, hsrc, happ, hc]
  · intro hc
    simp [updateExisting, hsrc, happ, hc]
  · intro idx id upd hmem
    simp only [updateExisting, hsrc, happ] at hmem
    by_cases hcp :
      containsPair i.references { parentHash := p.id, name := i.annotated.reference.name } = true
    · simp [hcp] at hmem
    · simp only [Bool.not_eq_true] at hcp
      simp [hcp] at hmem
      rw [hmem.2.2]

/-- The annotated resource of the C4 witness item. -/
def annC4w : AnnotatedResource :=
  { protocol := .ipfsProtocol, id := "QmKnownDir", source := .directorySource
    reference := { parent := some { protocol := .ipfsProtocol, id := "QmP2" }, name := "b" }
    rtype := .directoryType, size := 0 }

/-- An existing directory item re-seen from a new parent directory. -/
def itemC4w : ExistingItem :=
  { annotated := annC4w, index := .directories
    references := [{ parentHash := "QmP1", name := "a" }]
    lastSeen := some 1000000000 }

/-- C4 witness: the new pair `(QmP2, b)` is appended and a references-only
update is issued. -/
theorem reference_update_C4_witness :
    updateExisting { maxDirSize := 4, minUpdateAge := 0 } 0 itemC4w =
      ([.updated itemC4w.index itemC4w.annotated.id
          { lastSeen := none
            references := some (itemC4w.references ++
              [{ parentHash := "QmP2", name := "b" }]) }], none) :=
  (reference_update_C4 { maxDirSize := 4, minUpdateAge := 0 } 0 itemC4w
    { protocol := .ipfsProtocol, id := "QmP2" } rfl rfl).1 (by decide)

/-- C5: for an existing item re-seen with source `Sniffer` or `Unknown`, a
partial update setting `LastSeen` to the second-truncated current time is
issued if and only if the stored `LastSeen` is nil or the (truncated) current
time minus the stored time exceeds `MinUpdateAge`; otherwise nothing is
written. -/
theorem lastseen_update_C5 (cfg : Config) (now : Int) (i : ExistingItem)
    (hsrc : i.annotated.source = .snifferSource ∨ i.annotated.source = .unknownSource) :
    (i.lastSeen = none →
      updateExisting cfg now i =
        ([.updated i.index i.annotated.id
            { lastSeen := some (truncateSec now), references := none }], none)) ∧
    ∀ ls, i.lastSeen = some ls →
      (truncateSec now - ls > cfg.minUpdateAge →
        updateExisting cfg now i =
          ([.updated i.index i.annotated.id
              { lastSeen := some (truncateSec now), references := none }], none)) ∧
      (¬ truncateSec now - ls > cfg.minUpdateAge →
        updateExisting cfg now i = ([], none)) := by
  rcases hsrc with hs | hs <;>
  · constructor
    · intro hls
      simp [updateExisting, hs, hls]
    · intro ls hls
      constructor
      · intro hrec
        simp [updateExisting, hs, hls, hrec]
      · intro hrec
        simp [updateExisting, hs, hls, hrec]

/-- The annotated resource of the C5 witness item. -/
def annC5w : AnnotatedResource :=
  { protocol := .ipfsProtocol, id := "QmSeen", source := .snifferSource
    reference := { parent := none, name := "" }, rtype := .fileType, size := 3 }

/-- A sniffed item whose stored last-seen time is nil. -/
def itemC5w : ExistingItem :=
  { annotated := annC5w, index := .files, references := [], lastSeen := none }

/-- C5 witness: a nil stored last-seen time forces a refresh with the
truncated current time. -/
theorem lastseen_update_C5_witness :
    updateExisting { maxDirSize := 4, minUpdateAge := 3600000000000 } 1234567890123456789 itemC5w =
      ([.updated itemC5w.index itemC5w.annotated.id
          { lastSeen := some (truncateSec 1234567890123456789), references := none }], none) :=
  (lastseen_update_C5 { maxDirSize := 4, minUpdateAge := 3600000000000 }
    1234567890123456789 itemC5w (Or.inl rfl)).1 rfl

/-- C7: every child discovered during directory expansion is dispatched by
type — `Undefined` to `Hashes`, `File` to `Files`, `Directory` to
`Directories` — with priority `1 + rnd` for its own draw `rnd` of
`rand.Intn(7)`, so priorities range over `[1, 7]` and the map from draws to
priorities is a bijection (a uniform draw yields a uniform priority); an
`Unsupported` child is never queued and is instead indexed immediately into
`Invalids` with the unsupported-type error; in the directory loop the child at
position `i` consumes its own draw `rnds i`, independent of every other child
and of the parent (whose priority is not an input of `queueDirEntry` at
all). -/
theorem child_queueing_C7 :
    (∀ (r : AnnotatedResource) (rnd : Fin 7),
      (r.rtype = .undefinedType → queueDirEntry r rnd = .ok (.queued .hashes r (1 + rnd.val))) ∧
      (r.rtype = .fileType → queueDirEntry r rnd = .ok (.queued .files r (1 + rnd.val))) ∧
      (r.rtype = .directoryType →
        queueDirEntry r rnd = .ok (.queued .directories r (1 + rnd.val))) ∧
      (r.rtype = .unsupportedType →
        queueDirEntry r rnd = .ok (.indexed .invalids r.id (.invalidDoc "unsupported type")) ∧
        ∀ q r2 pr, queueDirEntry r rnd ≠ .ok (.queued q r2 pr)) ∧
      1 ≤ 1 + rnd.val ∧ 1 + rnd.val ≤ 7) ∧
    (Function.Injective fun rnd : Fin 7 => 1 + rnd.val) ∧
    (∀ pr : Nat, 1 ≤ pr → pr ≤ 7 → ∃ rnd : Fin 7, 1 + rnd.val = pr) ∧
    ∀ (m : Nat) (rnds : Nat → Fin 7) (entries : List AnnotatedResource),
      (∀ e ∈ entries, isSupportedType e.rtype = true) →
      (processDirEntries m rnds entries).effects = childQueueEffects rnds 0 entries ∧
      ∀ (i : Nat) (hi : i < entries.length),
        (childQueueEffects rnds 0 entries)[i]? =
          some (.queued (dispatchQueue entries[i].rtype) entries[i] (1 + (rnds i).val)) := by
  refine ⟨?_, ?_, ?_, ?_⟩
  · intro r rnd
    refine ⟨?_, ?_, ?_, ?_, ?_, ?_⟩
    · intro h; simp [queueDirEntry, h]
    · intro h; simp [queueDirEntry, h]
    · intro h; simp [queueDirEntry, h]
    · intro h
      constructor
      · simp [queueDirEntry, h, indexInvalid, ErrUnsupportedType, errorString]
      · intro q r2 pr hq
        simp [queueDirEntry, h, indexInvalid] at hq
    · omega
    · have := rnd.isLt
      omega
  · intro a b h
    simp only at h
    have hv : a.val = b.val := by omega
    exact Fin.ext hv
  · intro pr h1 h7
    exact ⟨⟨pr - 1, by omega⟩, by show 1 + (pr - 1) = pr; omega⟩
  · intro m rnds entries hq
    have hspec := processDirEntriesAux_spec m rnds entries 0 false [] [] hq
    constructor
    · simp [processDirEntries, hspec]
    · intro i hi
      simpa using childQueueEffects_getElem rnds entries 0 i hi

/-- C7 witness: a file-typed child with draw 3 is published to the `Files`
queue with priority `1 + 3 = 4`. -/
theorem child_queueing_C7_witness :
    queueDirEntry childFileW 3 = .ok (.queued .files childFileW (1 + (3 : Fin 7).val)) :=
  (child_queueing_C7.1 childFileW 3).2.1 rfl

/-- A resource with an invalid protocol, rejected by the crawl guard. -/
def rInvalidC8 : AnnotatedResource :=
  { protocol := .invalidProtocol, id := "QmBadProto", source := .snifferSource
    reference := { parent := none, name := "" }, rtype := .fileType, size := 0 }

/-- A minimal environment for the C8 witness. -/
def envC8w : CrawlEnv :=
  { cfg := { maxDirSize := 4, minUpdateAge := 0 }, existing := none, deleteErr := none
    statErr := none, statType := .fileType, statSize := 0, lsEntries := []
    rnds := fun _ => 0, extractorResults := [], now := 0 }

/-- C8: `Crawl` panics — with no effect performed — for every input with
protocol `Invalid` and for every input whose type is outside {`Undefined`,
`File`, `Directory`} (equivalently, `Partial` or `Unsupported`); for all other
inputs the guard passes and execution continues with the crawl body. -/
theorem crawl_guard_C8 (env : CrawlEnv) (r : AnnotatedResource) :
    (r.protocol = .invalidProtocol → Crawl env r = .panicked [] "invalid protocol") ∧
    (r.protocol ≠ .invalidProtocol → isSupportedType r.rtype = false →
      Crawl env r = .panicked [] "invalid type for crawler") ∧
    (isSupportedType r.rtype = false ↔
      r.rtype = .partialType ∨ r.rtype = .unsupportedType) ∧
    (r.protocol ≠ .invalidProtocol → isSupportedType r.rtype = true →
      Crawl env r = crawlBody env r) := by
  refine ⟨?_, ?_, ?_, ?_⟩
  · intro h
    simp [Crawl, h]
  · intro h1 h2
    simp [Crawl, h1, h2]
  · cases hr : r.rtype <;> simp [isSupportedType, hr]
  · intro h1 h2
    simp [Crawl, h1, h2]

/-- C8 witness: a resource with protocol `Invalid` makes the guard panic with
no effect performed. -/
theorem crawl_guard_C8_witness :
    Crawl envC8w rInvalidC8 = .panicked [] "invalid protocol" :=
  (crawl_guard_C8 envC8w rInvalidC8).1 rfl

/-- C9: the event-source afterPut hook returns the original write error
unchanged (emitting nothing) whenever that error is non-nil, and returns nil in
every other case — non-provider keys, CID or PeerID parse failures, and emit
failures are never propagated as errors. -/
theorem afterput_errors_C9 (isProviderKey : Bool)
    (cidResult pidResult : Except GoError String) (emitErr : Option GoError) :
    (∀ e : GoError,
      afterPut (some e) isProviderKey cidResult pidResult emitErr = (some e, [])) ∧
    (afterPut none false cidResult pidResult emitErr = (none, [])) ∧
    (∀ ce, cidResult = .error ce →
      afterPut none isProviderKey cidResult pidResult emitErr = (none, [])) ∧
    (∀ cid pe, cidResult = .ok cid → pidResult = .error pe →
      afterPut none isProviderKey cidResult pidResult emitErr = (none, [])) ∧
    (afterPut none isProviderKey cidResult pidResult emitErr).1 = none := by
  refine ⟨?_, ?_, ?_, ?_, ?_⟩
  · intro e
    simp [afterPut]
  · simp [afterPut]
  · intro ce hc
    cases isProviderKey <;> simp [afterPut, hc]
  · intro cid pe hc hpd
    cases isProviderKey <;> simp [afterPut, hc, hpd]
  · cases isProviderKey <;> cases cidResult <;> cases pidResult <;> cases emitErr <;>
      simp [afterPut]

/-- C9 witness: a non-nil write error is returned unchanged and no event is
emitted. -/
theorem afterput_errors_C9_witness :
    afterPut (some (.generic "disk full")) true (.ok "QmSomeCid") (.ok "PeerA") none =
      (some (.generic "disk full"), []) :=
  (afterput_errors_C9 true (.ok "QmSomeCid") (.ok "PeerA") none).1 (.generic "disk full")

/-- C10: an existing item found in `Files` or `Directories` re-seen with
source `Directory` but a nil incoming parent yields no update at all: the
append reports no change, no effect is issued, and the crawl reports the item
as already processed, finishing with no write. -/
theorem directory_nilparent_noop_C10 (cfg : Config) (now : Int) (deleteErr : Option GoError)
    (i : ExistingItem) (hsrc : i.annotated.source = .directorySource)
    (hpar : i.annotated.reference.parent = none)
    (hidx : i.index = .files ∨ i.index = .directories) :
    appendReference i.references i.annotated.reference = (i.references, false) ∧
    updateExisting cfg now i = ([], none) ∧
    processExisting cfg now deleteErr i = (true, [], none) ∧
    ∀ (env : CrawlEnv) (r : AnnotatedResource), env.cfg = cfg → env.now = now →
      env.deleteErr = deleteErr → env.existing = some i →
      r.protocol ≠ .invalidProtocol → isSupportedType r.rtype = true →
      Crawl env r = .done [] none := by
  have happ : appendReference i.references i.annotated.reference = (i.references, false) := by
    simp [appendReference, hpar]
  have hupd : updateExisting cfg now i = ([], none) := by
    simp [updateExisting, hsrc, happ]
  have hproc : processExisting cfg now deleteErr i = (true, [], none) := by
    rcases hidx with h | h <;> simp [processExisting, h, hupd]
  refine ⟨happ, hupd, hproc, ?_⟩
  intro env r hcfg hnow hdel hex hp ht
  rw [Crawl_valid env r hp ht]
  simp [crawlBody, updateMaybeExisting, hex, hcfg, hnow, hdel, hproc]

/-- The annotated resource of the C10 witness item: directory-sourced with a
nil parent reference. -/
def annC10w : AnnotatedResource :=
  { protocol := .ipfsProtocol, id := "QmNilRef", source := .directorySource
    reference := { parent := none, name := "" }, rtype := .fileType, size := 2 }

/-- The C10 witness item as found in the `Files` index. -/
def itemC10w : ExistingItem :=
  { annotated := annC10w, index := .files, references := [], lastSeen := some 5000000000 }

/-- Environment for the C10 witness. -/
def envC10w : CrawlEnv :=
  { cfg := { maxDirSize := 4, minUpdateAge := 60000000000 }, existing := some itemC10w
    deleteErr := none, statErr := none, statType := .fileType, statSize := 2
    lsEntries := [], rnds := fun _ => 1, extractorResults := [], now := 7000000000 }

/-- C10 witness: crawling the re-seen resource stops with no write. -/
theorem directory_nilparent_noop_C10_witness :
    Crawl envC10w annC10w = .done [] none :=
  (directory_nilparent_noop_C10 { maxDirSize := 4, minUpdateAge := 60000000000 } 7000000000 none
    itemC10w rfl rfl (Or.inl rfl)).2.2.2 envC10w annC10w rfl rfl rfl rfl (by decide) (by decide)

end IpfsSearch
